import Mathlib

/-!
Verification of the conversational-agent turn orchestrator
(`conversar_agente.py`): the moderation gate `moderar_texto`, the
run-status polling loop, the per-turn state machine of the conversation
loop, and the session loop, modelled as pure Lean functions.

External services (the agent service and the content-safety backend) are
modelled as explicit response environments: the moderation backend is a
function from text to an `Except`-valued analysis outcome, and the agent
service is a record of the responses its five operations would return.
An uncaught Python exception is modelled by the `excepcion` constructor,
which aborts the turn and (in `ejecutarSesion`) the whole session, since
the script installs no error handler around the service calls.
User-visible prints are collected as an ordered list of `Evento`s.
-/

namespace ConversarAgente

/-- One entry of `respuesta.categories_analysis`: a content-safety
category with its integer severity. -/
structure ResultadoCategoria where
  category : String
  severity : Nat
deriving DecidableEq

/-- The moderation backend: `cliente.analyze_text` either raises
(modelled `Except.error`) or returns the category analysis. -/
abbrev Moderador := String → Except String (List ResultadoCategoria)

/-- The triple returned by `moderar_texto`: `(es_seguro,
resultado_moderacion, respuesta)`. -/
structure Veredicto where
  esSeguro : Bool
  razon : String
  respuesta : Option (List ResultadoCategoria)
deriving DecidableEq

/-- The body of the `for resultado_categoria in
respuesta.categories_analysis` loop of `moderar_texto` (lines 105-111):
state is `(esta_marcado, categorias_marcadas, severidad_maxima)`. -/
def pasoCategoria (acc : Bool × List String × Nat) (r : ResultadoCategoria) :
    Bool × List String × Nat :=
  let severidadMax := max acc.2.2 r.severity
  if 2 ≤ r.severity then
    (true,
     acc.2.1 ++ [r.category ++ " (severidad: " ++ toString r.severity ++ ")"],
     severidadMax)
  else
    (acc.1, acc.2.1, severidadMax)

/-- `moderar_texto(texto, cliente)` (lines 86-127), with the telemetry
span calls dropped (they are write-only side effects). -/
def moderar_texto (texto : String) (cliente : Option Moderador) : Veredicto :=
  match cliente with
  | none => ⟨true, "Moderación de contenido deshabilitada", none⟩
  | some analizar =>
    match analizar texto with
    | .error _ => ⟨true, "Moderación no disponible", none⟩
    | .ok categorias =>
      let acc := categorias.foldl pasoCategoria (false, [], 0)
      if acc.1 then
        ⟨false, "Contenido marcado por: " ++ String.intercalate ", " acc.2.1,
         some categorias⟩
      else
        ⟨true, "El contenido es seguro", some categorias⟩

/-- Specification-side reading of the loop: the maximum severity over
all returned categories. -/
def severidadMaxima (categorias : List ResultadoCategoria) : Nat :=
  categorias.foldl (fun m c => max m c.severity) 0

/-- The string `f"{category} (severidad: {severity})"` recorded for a
flagged category. -/
def entradaMarcada (c : ResultadoCategoria) : String :=
  c.category ++ " (severidad: " ++ toString c.severity ++ ")"

/-- Specification-side reading of `categorias_marcadas`: the formatted
entries of exactly the categories at or above the threshold. -/
def entradasMarcadas (categorias : List ResultadoCategoria) : List String :=
  (categorias.filter (fun c => decide (2 ≤ c.severity))).map entradaMarcada

/-- Remote run status, as the agent-service contract lists it. The
polling loop of the script compares against the strings `"queued"`,
`"in_progress"`, `"requires_action"`. -/
inductive RunStatus where
  | queued
  | in_progress
  | requires_action
  | completed
  | failed
  | cancelled
  | expired
deriving DecidableEq, BEq

/-- `ejecucion.status in ["queued", "in_progress", "requires_action"]`
(line 337). -/
def esEstadoNoTerminal (st : RunStatus) : Bool :=
  [RunStatus.queued, RunStatus.in_progress, RunStatus.requires_action].contains st

/-- The polling loop (lines 336-339): while the status is non-terminal,
sleep one second and fetch the status again.  `respuestas` lists the
successive results the service would return to `runs.get`; an
`Except.error` entry models the fetch raising.  Returns `none` when the
supplied responses run out while the status is still non-terminal
(the real loop would keep blocking: it has no retry bound or timeout),
otherwise the surfaced error or `(final status, number of fetches,
seconds slept)` — each fetch is preceded by exactly one `time.sleep(1)`. -/
def sondearEjecucion : RunStatus → List (Except String RunStatus) →
    Option (Except String (RunStatus × Nat × Nat))
  | st, [] =>
    if esEstadoNoTerminal st then none else some (.ok (st, 0, 0))
  | st, .error e :: _ =>
    if esEstadoNoTerminal st then some (.error e) else some (.ok (st, 0, 0))
  | st, .ok st2 :: resto =>
    if esEstadoNoTerminal st then
      match sondearEjecucion st2 resto with
      | none => none
      | some (.error e) => some (.error e)
      | some (.ok (fin, n, s)) => some (.ok (fin, n + 1, s + 1))
    else some (.ok (st, 0, 0))

/-- One element of a message's `content` list: either a
`MessageTextContent` part or some other content kind. -/
inductive ContenidoParte where
  | texto (valor : String)
  | otro
deriving DecidableEq

/-- A message returned by `messages.list`, with its `role` and ordered
`content` parts. -/
structure Mensaje where
  role : String
  content : List ContenidoParte
deriving DecidableEq

/-- A user-visible print of the conversation loop, in order:
`advertenciaModeracion` is the warning `moderar_texto` itself prints
when the backend call raises (line 126);
`impresionAnalisis` is `imprimir_resultados_seguridad_contenido`
(analysis table, or the "Análisis no disponible" notice when `none`);
`rechazoEntrada` is the input refusal carrying the moderation reason;
`textoAgente` is the delivered agent response text;
`analisisRespuesta` is the response-safety table printed under a safe
response; `rechazoRespuesta` is the generic output-refusal sentence;
`lineaBlanca` is a bare `print()` spacing line. -/
inductive Evento where
  | advertenciaModeracion (e : String)
  | impresionAnalisis (respuesta : Option (List ResultadoCategoria))
  | rechazoEntrada (razon : String)
  | textoAgente (texto : String)
  | analisisRespuesta (categorias : List ResultadoCategoria)
  | rechazoRespuesta
  | lineaBlanca
deriving DecidableEq

/-- The print a call to `moderar_texto` makes on its own: the except
branch prints `"Advertencia: La moderación de contenido falló: {e}"`
(line 126); the disabled and successful paths print nothing during the
call. -/
def eventosModeracion (texto : String) : Option Moderador → List Evento
  | none => []
  | some analizar =>
    match analizar texto with
    | .error e => [.advertenciaModeracion e]
    | .ok _ => []

/-- The agent-service environment for one turn: what each remote
operation the loop body performs would return.  An `Except.error`
models the SDK call raising a transport/service error. -/
structure ServicioAgente where
  crearMensaje : String → Except String Unit
  crearEjecucion : Except String RunStatus
  respuestasSondeo : List (Except String RunStatus)
  listarMensajes : Except String (List Mensaje)

/-- The environment of one loop iteration: the (already stripped) user
input and the agent-service responses for this turn. -/
structure EntornoTurno where
  entrada : String
  svc : ServicioAgente

/-- `metadata_usuario["customer_id"]` (lines 47-49). -/
def metadata_usuario_customer_id : String := "88129215"

/-- The content posted to the thread (line 326):
`f"[CONTEXT: customer_id={metadata_usuario['customer_id']}] {entrada_usuario}"`. -/
def contenidoMensaje (entrada : String) : String :=
  "[CONTEXT: customer_id=" ++ metadata_usuario_customer_id ++ "] " ++ entrada

/-- What one turn records: the ordered user-visible prints, the
moderation calls made (text and verdict, in order), the content posted
to the thread (if any), and the number of status fetches. -/
structure ResultadoTurno where
  eventos : List Evento
  moderaciones : List (String × Veredicto)
  mensajePublicado : Option String
  sondeos : Nat
deriving DecidableEq

/-- How a loop-body iteration ends: normally (the `while True` loop
continues), with an uncaught exception (the script has no handler, so
the session dies), or never (polling responses exhausted while
non-terminal).  The last two carry the prints already made. -/
inductive ResultadoSesionTurno where
  | termina (r : ResultadoTurno)
  | excepcion (e : String) (eventosPrevios : List Evento)
  | diverge (eventosPrevios : List Evento)
deriving DecidableEq

/-- Lines 356-379: handling of one content part of the assistant
message — moderate the text (the moderation call's own warning print
comes first when the backend raises), then either print it (plus the
response-safety table when an analysis is attached) or print the
generic refusal followed by the analysis table.  Returns the prints and
the moderation calls made. -/
def procesarParte (cliente : Option Moderador) (parte : ContenidoParte) :
    List Evento × List (String × Veredicto) :=
  match parte with
  | .otro => ([], [])
  | .texto v =>
    (eventosModeracion v cliente ++
      (if (moderar_texto v cliente).esSeguro then
        Evento.textoAgente v ::
          (match (moderar_texto v cliente).respuesta with
           | some categorias => [Evento.analisisRespuesta categorias]
           | none => [])
      else
        [Evento.rechazoRespuesta,
         Evento.impresionAnalisis (moderar_texto v cliente).respuesta]),
     [(v, moderar_texto v cliente)])

/-- The `for elemento_contenido in mensaje.content` loop (line 355). -/
def procesarPartes (cliente : Option Moderador) :
    List ContenidoParte → List Evento × List (String × Veredicto)
  | [] => ([], [])
  | p :: resto =>
    let r1 := procesarParte cliente p
    let r2 := procesarPartes cliente resto
    (r1.1 ++ r2.1, r1.2 ++ r2.2)

/-- Lines 352-380: the listed messages are scanned in order for the
first `role == "assistant"` message, whose content parts are processed;
the `break` stops after that message.  No assistant message (or an
empty content list) means no parts are processed. -/
def contenidoAsistente (mensajes : List Mensaje) : List ContenidoParte :=
  match mensajes.find? (fun m => m.role == "assistant") with
  | some m => m.content
  | none => []

/-- The body of the conversation loop (lines 305-382) for a non-empty,
non-exit input: moderate the input (the call prints its own warning if
the backend raises) and print the analysis; refuse if unsafe;
otherwise post the prefixed message, create the run, poll it, list the
messages and process the first assistant message's parts, ending with
the spacing print.  Service errors abort with `excepcion` (nothing
catches them). -/
def ejecutarCuerpoTurno (cliente : Option Moderador) (env : EntornoTurno) :
    ResultadoSesionTurno :=
  if (moderar_texto env.entrada cliente).esSeguro = false then
    .termina ⟨eventosModeracion env.entrada cliente ++
                [.impresionAnalisis (moderar_texto env.entrada cliente).respuesta,
                 .rechazoEntrada (moderar_texto env.entrada cliente).razon, .lineaBlanca],
              [(env.entrada, moderar_texto env.entrada cliente)], none, 0⟩
  else
    match env.svc.crearMensaje (contenidoMensaje env.entrada) with
    | .error e =>
      .excepcion e (eventosModeracion env.entrada cliente ++
        [.impresionAnalisis (moderar_texto env.entrada cliente).respuesta])
    | .ok _ =>
      match env.svc.crearEjecucion with
      | .error e =>
        .excepcion e (eventosModeracion env.entrada cliente ++
          [.impresionAnalisis (moderar_texto env.entrada cliente).respuesta])
      | .ok st =>
        match sondearEjecucion st env.svc.respuestasSondeo with
        | none =>
          .diverge (eventosModeracion env.entrada cliente ++
            [.impresionAnalisis (moderar_texto env.entrada cliente).respuesta])
        | some (.error e) =>
          .excepcion e (eventosModeracion env.entrada cliente ++
            [.impresionAnalisis (moderar_texto env.entrada cliente).respuesta])
        | some (.ok (_, n, _)) =>
          match env.svc.listarMensajes with
          | .error e =>
            .excepcion e (eventosModeracion env.entrada cliente ++
              [.impresionAnalisis (moderar_texto env.entrada cliente).respuesta])
          | .ok mensajes =>
            .termina ⟨eventosModeracion env.entrada cliente ++
                        (Evento.impresionAnalisis (moderar_texto env.entrada cliente).respuesta ::
                          ((procesarPartes cliente (contenidoAsistente mensajes)).1 ++ [.lineaBlanca])),
                      (env.entrada, moderar_texto env.entrada cliente) ::
                        (procesarPartes cliente (contenidoAsistente mensajes)).2,
                      some (contenidoMensaje env.entrada), n⟩

/-- The user-visible prints of a loop-body iteration (for `excepcion`
and `diverge`, the prints made before the abort). -/
def eventosTurno : ResultadoSesionTurno → List Evento
  | .termina r => r.eventos
  | .excepcion _ evs => evs
  | .diverge evs => evs

/-- The moderation calls of a normally-ending iteration. -/
def moderacionesTurno : ResultadoSesionTurno → List (String × Veredicto)
  | .termina r => r.moderaciones
  | _ => []

/-- The content posted to the thread by a normally-ending iteration. -/
def mensajeTurno : ResultadoSesionTurno → Option String
  | .termina r => r.mensajePublicado
  | _ => none

/-- `entrada_usuario.lower()`: lower-case the string character by
character. -/
def aMinusculas (s : String) : String := ⟨s.data.map Char.toLower⟩

/-- `entrada_usuario.lower() in ['quit', 'exit', 'bye', 'salir',
'adiós']` (line 296). -/
def esComandoSalida (s : String) : Bool :=
  ["quit", "exit", "bye", "salir", "adiós"].contains (aMinusculas s)

/-- How the session ends relative to a finite list of prepared turn
environments. -/
inductive FinSesion where
  | salida
  | agotado
  | excepcion (e : String)
  | diverge
deriving DecidableEq

/-- The `while True` conversation loop (lines 285-383) over a finite
list of turn environments: per iteration the counter increments, then
exit phrases break, blank input continues, and otherwise the body runs;
an uncaught exception (or divergence) ends the session on the spot.
Returns `(contador_conversacion, completed turn results, ending)`. -/
def ejecutarSesion (cliente : Option Moderador) :
    List EntornoTurno → Nat × List ResultadoTurno × FinSesion
  | [] => (0, [], .agotado)
  | env :: resto =>
    if esComandoSalida env.entrada then
      (1, [], .salida)
    else if env.entrada = "" then
      let r := ejecutarSesion cliente resto
      (r.1 + 1, r.2.1, r.2.2)
    else
      match ejecutarCuerpoTurno cliente env with
      | .termina t =>
        let r := ejecutarSesion cliente resto
        (r.1 + 1, t :: r.2.1, r.2.2)
      | .excepcion e _ => (1, [], .excepcion e)
      | .diverge _ => (1, [], .diverge)

/-- Whether a content part is a `MessageTextContent`. -/
def esParteTexto : ContenidoParte → Bool
  | .texto _ => true
  | .otro => false

/-- The number of text parts in a content list: the turn moderates the
agent side once per such part. -/
def numPartesTexto (partes : List ContenidoParte) : Nat :=
  (partes.filter esParteTexto).length

/-- The status-fetch count of a normally-ending iteration. -/
def sondeosTurno : ResultadoSesionTurno → Option Nat
  | .termina r => some r.sondeos
  | _ => none

/-- A configured backend that reports every text as severity 0. -/
def analizarSeguro : Moderador := fun _ => .ok [⟨"Hate", 0⟩]

/-- A configured backend that flags everything at severity 3. -/
def analizarMarcado : Moderador := fun _ => .ok [⟨"Hate", 3⟩]

/-- A configured backend that flags exactly the text `"malo"` at
severity 4 and reports everything else as severity 0. -/
def analizarC5 : Moderador := fun t =>
  if t == "malo" then .ok [⟨"Hate", 4⟩] else .ok [⟨"Hate", 0⟩]

/-- A configured backend whose analysis call always raises. -/
def analizarError : Moderador := fun _ => .error "net"

/-- An agent service whose calls all succeed: the run is created
`queued`, the first poll reports `completed`, and the listed messages
are as given. -/
def svcDe (mensajes : List Mensaje) : ServicioAgente :=
  ⟨fun _ => .ok (), .ok .queued, [.ok .completed], .ok mensajes⟩

/-- An agent service realizing the status sequence of P5: created
`queued`, then observed `in_progress`, then `completed`. -/
def svcSecuencia (mensajes : List Mensaje) : ServicioAgente :=
  ⟨fun _ => .ok (), .ok .queued, [.ok .in_progress, .ok .completed], .ok mensajes⟩

/-- An agent service whose `runs.create` raises the given error. -/
def svcErrorEjecucion (e : String) : ServicioAgente :=
  ⟨fun _ => .ok (), .error e, [], .ok []⟩

/-- A turn whose run answers with the single text `"respuesta"`. -/
def envEntrega : EntornoTurno :=
  ⟨"hola", svcDe [⟨"assistant", [.texto "respuesta"]⟩]⟩

/-- A turn whose run answers with the single text `"malo"`. -/
def envC5 : EntornoTurno :=
  ⟨"hola", svcDe [⟨"assistant", [.texto "malo"]⟩]⟩

/-- A turn whose run terminates but whose thread lists no messages at
all (no assistant text to retrieve). -/
def envC6 : EntornoTurno := ⟨"hola", svcDe []⟩

/-- A turn whose assistant message exists but carries only a non-text
content part. -/
def envSinTexto : EntornoTurno := ⟨"hola", svcDe [⟨"assistant", [.otro]⟩]⟩

/-- A turn whose assistant message carries two text parts. -/
def envC7 : EntornoTurno :=
  ⟨"hola", svcDe [⟨"assistant", [.texto "a", .texto "b"]⟩]⟩

/-- A turn realizing the P5 polling sequence. -/
def envC8 : EntornoTurno :=
  ⟨"hola", svcSecuencia [⟨"assistant", [.texto "r"]⟩]⟩

/-- A turn where `runs.create` raises a network error. -/
def envErrorRed : EntornoTurno := ⟨"hola", svcErrorEjecucion "error de red"⟩

/-- A second such turn, with a distinct error message. -/
def envFalloRed : EntornoTurno := ⟨"hola", svcErrorEjecucion "fallo de red"⟩

lemma foldl_pasoCategoria_marcado (categorias : List ResultadoCategoria)
    (b : Bool) (l : List String) (m : Nat) :
    (categorias.foldl pasoCategoria (b, l, m)).1
      = (b || categorias.any (fun c => decide (2 ≤ c.severity))) := by
  induction categorias generalizing b l m with
  | nil => simp
  | cons c resto ih =>
    simp only [List.foldl_cons, List.any_cons, pasoCategoria]
    by_cases h : 2 ≤ c.severity
    · simp [h, ih]
    · simp [h, ih]

lemma foldl_pasoCategoria_lista (categorias : List ResultadoCategoria)
    (b : Bool) (l : List String) (m : Nat) :
    (categorias.foldl pasoCategoria (b, l, m)).2.1
      = l ++ entradasMarcadas categorias := by
  induction categorias generalizing b l m with
  | nil => simp [entradasMarcadas]
  | cons c resto ih =>
    simp only [List.foldl_cons, pasoCategoria, entradasMarcadas]
    by_cases h : 2 ≤ c.severity
    · simp [h, ih, entradasMarcadas, entradaMarcada]
    · simp [h, ih, entradasMarcadas]

lemma foldl_pasoCategoria_max (categorias : List ResultadoCategoria)
    (b : Bool) (l : List String) (m : Nat) :
    (categorias.foldl pasoCategoria (b, l, m)).2.2
      = categorias.foldl (fun a c => max a c.severity) m := by
  induction categorias generalizing b l m with
  | nil => simp
  | cons c resto ih =>
    simp only [List.foldl_cons, pasoCategoria]
    by_cases h : 2 ≤ c.severity
    · simp [h, ih]
    · simp [h, ih]

lemma foldl_max_lt_dos (categorias : List ResultadoCategoria) (m : Nat) :
    categorias.foldl (fun a c => max a c.severity) m < 2
      ↔ m < 2 ∧ ∀ c ∈ categorias, c.severity < 2 := by
  induction categorias generalizing m with
  | nil => simp
  | cons c resto ih =>
    simp only [List.foldl_cons, List.mem_cons, ih]
    constructor
    · rintro ⟨hm, hrest⟩
      refine ⟨?_, fun d hd => ?_⟩
      · omega
      · rcases hd with rfl | hd
        · omega
        · exact hrest d hd
    · rintro ⟨hm, hall⟩
      have hc := hall c (Or.inl rfl)
      exact ⟨by omega, fun d hd => hall d (Or.inr hd)⟩

lemma eventosModeracion_mem (texto : String) (cliente : Option Moderador)
    (ev : Evento) (h : ev ∈ eventosModeracion texto cliente) :
    ∃ e, ev = Evento.advertenciaModeracion e := by
  cases cliente with
  | none => simp [eventosModeracion] at h
  | some analizar =>
    simp only [eventosModeracion] at h
    cases ha : analizar texto with
    | error e =>
      rw [ha] at h
      simp at h
      exact ⟨e, h⟩
    | ok categorias =>
      rw [ha] at h
      simp at h

lemma procesarParte_textoAgente (cliente : Option Moderador)
    (p : ContenidoParte) (t : String)
    (h : Evento.textoAgente t ∈ (procesarParte cliente p).1) :
    (moderar_texto t cliente).esSeguro = true ∧
      (t, moderar_texto t cliente) ∈ (procesarParte cliente p).2 := by
  cases p with
  | otro => simp [procesarParte] at h
  | texto v =>
    simp only [procesarParte, List.mem_append] at h ⊢
    rcases h with hw | h
    · obtain ⟨e2, he⟩ := eventosModeracion_mem v cliente _ hw
      exact Evento.noConfusion he
    · by_cases hs : (moderar_texto v cliente).esSeguro = true
      · rw [if_pos hs] at h
        rcases List.mem_cons.mp h with heq | hmem
        · have ht : t = v := by injection heq
          subst ht
          exact ⟨hs, List.mem_singleton.mpr rfl⟩
        · cases hr : (moderar_texto v cliente).respuesta <;> rw [hr] at hmem <;>
            simp at hmem
      · rw [if_neg hs] at h
        simp at h

lemma procesarPartes_textoAgente (cliente : Option Moderador)
    (partes : List ContenidoParte) (t : String)
    (h : Evento.textoAgente t ∈ (procesarPartes cliente partes).1) :
    (moderar_texto t cliente).esSeguro = true ∧
      (t, moderar_texto t cliente) ∈ (procesarPartes cliente partes).2 := by
  induction partes with
  | nil => simp [procesarPartes] at h
  | cons p resto ih =>
    simp only [procesarPartes, List.mem_append] at h ⊢
    rcases h with h1 | h2
    · have := procesarParte_textoAgente cliente p t h1
      exact ⟨this.1, Or.inl this.2⟩
    · have := ih h2
      exact ⟨this.1, Or.inr this.2⟩

lemma procesarParte_sin_rechazoEntrada (cliente : Option Moderador)
    (p : ContenidoParte) (razon : String) :
    Evento.rechazoEntrada razon ∉ (procesarParte cliente p).1 := by
  cases p with
  | otro => simp [procesarParte]
  | texto v =>
    simp only [procesarParte, List.mem_append]
    rintro (hw | h)
    · obtain ⟨e2, he⟩ := eventosModeracion_mem v cliente _ hw
      exact Evento.noConfusion he
    · by_cases hs : (moderar_texto v cliente).esSeguro = true
      · rw [if_pos hs] at h
        rcases List.mem_cons.mp h with heq | hmem
        · exact Evento.noConfusion heq
        · cases hr : (moderar_texto v cliente).respuesta <;> rw [hr] at hmem <;>
            simp at hmem
      · rw [if_neg hs] at h
        simp at h

lemma procesarPartes_sin_rechazoEntrada (cliente : Option Moderador)
    (partes : List ContenidoParte) (razon : String) :
    Evento.rechazoEntrada razon ∉ (procesarPartes cliente partes).1 := by
  induction partes with
  | nil => simp [procesarPartes]
  | cons p resto ih =>
    simp only [procesarPartes, List.mem_append]
    rintro (h1 | h2)
    · exact procesarParte_sin_rechazoEntrada cliente p razon h1
    · exact ih h2

lemma procesarPartes_longitud (cliente : Option Moderador)
    (partes : List ContenidoParte) :
    (procesarPartes cliente partes).2.length = numPartesTexto partes := by
  induction partes with
  | nil => simp [procesarPartes, numPartesTexto]
  | cons p resto ih =>
    simp only [procesarPartes, numPartesTexto, List.length_append, ih]
    cases p with
    | otro => simp [procesarParte, esParteTexto, numPartesTexto]
    | texto v =>
      simp only [procesarParte, esParteTexto, numPartesTexto, List.filter_cons]
      simp
      omega

lemma procesarPartes_sin_texto (cliente : Option Moderador)
    (partes : List ContenidoParte) (h : numPartesTexto partes = 0) :
    procesarPartes cliente partes = ([], []) := by
  induction partes with
  | nil => rfl
  | cons p resto ih =>
    cases p with
    | otro =>
      have hr : numPartesTexto resto = 0 := by
        simpa [numPartesTexto, List.filter_cons, esParteTexto] using h
      simp [procesarPartes, procesarParte, ih hr]
    | texto v =>
      exfalso
      simp [numPartesTexto, List.filter_cons, esParteTexto] at h

lemma procesarPartes_parte_insegura (cliente : Option Moderador)
    (partes : List ContenidoParte) (t : String)
    (h : (moderar_texto t cliente).esSeguro = false)
    (hmem : ContenidoParte.texto t ∈ partes) :
    Evento.rechazoRespuesta ∈ (procesarPartes cliente partes).1
    ∧ Evento.impresionAnalisis (moderar_texto t cliente).respuesta
        ∈ (procesarPartes cliente partes).1 := by
  induction partes with
  | nil => simp at hmem
  | cons p resto ih =>
    simp only [procesarPartes, List.mem_append]
    rcases List.mem_cons.mp hmem with heq | hresto
    · subst heq
      simp only [procesarParte]
      rw [if_neg (by simp [h])]
      constructor
      · exact Or.inl (List.mem_append.mpr (Or.inr (by simp)))
      · exact Or.inl (List.mem_append.mpr (Or.inr (by simp)))
    · have := ih hresto
      exact ⟨Or.inr this.1, Or.inr this.2⟩

lemma cuerpo_termina_casos (cliente : Option Moderador) (env : EntornoTurno)
    (r : ResultadoTurno)
    (h : ejecutarCuerpoTurno cliente env = .termina r) :
    ((moderar_texto env.entrada cliente).esSeguro = false
      ∧ r = ⟨eventosModeracion env.entrada cliente ++
               [.impresionAnalisis (moderar_texto env.entrada cliente).respuesta,
                .rechazoEntrada (moderar_texto env.entrada cliente).razon, .lineaBlanca],
             [(env.entrada, moderar_texto env.entrada cliente)], none, 0⟩)
    ∨ ((moderar_texto env.entrada cliente).esSeguro = true
      ∧ ∃ mensajes n, env.svc.listarMensajes = .ok mensajes ∧
          r = ⟨eventosModeracion env.entrada cliente ++
                (Evento.impresionAnalisis (moderar_texto env.entrada cliente).respuesta ::
                  ((procesarPartes cliente (contenidoAsistente mensajes)).1 ++ [.lineaBlanca])),
               (env.entrada, moderar_texto env.entrada cliente) ::
                (procesarPartes cliente (contenidoAsistente mensajes)).2,
               some (contenidoMensaje env.entrada), n⟩) := by
  unfold ejecutarCuerpoTurno at h
  split at h
  · next hs =>
    left
    refine ⟨hs, ?_⟩
    injection h with h2
    exact h2.symm
  · next hs =>
    right
    refine ⟨by revert hs; cases (moderar_texto env.entrada cliente).esSeguro <;> simp, ?_⟩
    split at h
    · exact absurd h (by simp)
    · split at h
      · exact absurd h (by simp)
      · split at h
        · exact absurd h (by simp)
        · exact absurd h (by simp)
        · split at h
          · exact absurd h (by simp)
          · next mensajes heq =>
            injection h with h2
            exact ⟨mensajes, _, heq, h2.symm⟩

lemma cuerpo_excepcion_eventos (cliente : Option Moderador) (env : EntornoTurno)
    (e : String) (evs : List Evento)
    (h : ejecutarCuerpoTurno cliente env = .excepcion e evs) :
    evs = eventosModeracion env.entrada cliente ++
      [.impresionAnalisis (moderar_texto env.entrada cliente).respuesta] := by
  unfold ejecutarCuerpoTurno at h
  split at h
  · exact absurd h (by simp)
  · split at h
    · injection h with h1 h2
      exact h2.symm
    · split at h
      · injection h with h1 h2
        exact h2.symm
      · split at h
        · exact absurd h (by simp)
        · injection h with h1 h2
          exact h2.symm
        · split at h
          · injection h with h1 h2
            exact h2.symm
          · exact absurd h (by simp)

lemma cuerpo_diverge_eventos (cliente : Option Moderador) (env : EntornoTurno)
    (evs : List Evento)
    (h : ejecutarCuerpoTurno cliente env = .diverge evs) :
    evs = eventosModeracion env.entrada cliente ++
      [.impresionAnalisis (moderar_texto env.entrada cliente).respuesta] := by
  unfold ejecutarCuerpoTurno at h
  split at h
  · exact absurd h (by simp)
  · split at h
    · exact absurd h (by simp)
    · split at h
      · exact absurd h (by simp)
      · split at h
        · injection h with h1
          exact h1.symm
        · exact absurd h (by simp)
        · split at h
          · exact absurd h (by simp)
          · exact absurd h (by simp)

lemma eventos_textoAgente_seguro (cliente : Option Moderador) (env : EntornoTurno)
    (t : String)
    (h : Evento.textoAgente t ∈ eventosTurno (ejecutarCuerpoTurno cliente env)) :
    ((env.entrada, moderar_texto env.entrada cliente)
        ∈ moderacionesTurno (ejecutarCuerpoTurno cliente env)
      ∧ (moderar_texto env.entrada cliente).esSeguro = true)
    ∧ ((t, moderar_texto t cliente)
        ∈ moderacionesTurno (ejecutarCuerpoTurno cliente env)
      ∧ (moderar_texto t cliente).esSeguro = true) := by
  generalize hc : ejecutarCuerpoTurno cliente env = res at h ⊢
  cases res with
  | termina r =>
    rcases cuerpo_termina_casos cliente env r hc with ⟨hs, hr⟩ | ⟨hs, mensajes, n, hlist, hr⟩
    · subst hr
      simp only [eventosTurno, List.mem_append] at h
      rcases h with hw | h
      · obtain ⟨e2, he⟩ := eventosModeracion_mem env.entrada cliente _ hw
        exact Evento.noConfusion he
      · simp at h
    · subst hr
      simp only [eventosTurno, moderacionesTurno, List.mem_cons, List.mem_append] at h ⊢
      rcases h with hw | h1 | h2 | h3
      · obtain ⟨e2, he⟩ := eventosModeracion_mem env.entrada cliente _ hw
        exact Evento.noConfusion he
      · exact absurd h1 (by simp)
      · have hp := procesarPartes_textoAgente cliente (contenidoAsistente mensajes) t h2
        exact ⟨⟨by simp, hs⟩, ⟨Or.inr hp.2, hp.1⟩⟩
      · simp at h3
  | excepcion e evs =>
    rw [cuerpo_excepcion_eventos cliente env e evs hc] at h
    simp only [eventosTurno, List.mem_append] at h
    rcases h with hw | h
    · obtain ⟨e2, he⟩ := eventosModeracion_mem env.entrada cliente _ hw
      exact Evento.noConfusion he
    · simp at h
  | diverge evs =>
    rw [cuerpo_diverge_eventos cliente env evs hc] at h
    simp only [eventosTurno, List.mem_append] at h
    rcases h with hw | h
    · obtain ⟨e2, he⟩ := eventosModeracion_mem env.entrada cliente _ hw
      exact Evento.noConfusion he
    · simp at h

lemma sondeo_estado_terminal (st : RunStatus) (resp : List (Except String RunStatus))
    (h : esEstadoNoTerminal st = false) :
    sondearEjecucion st resp = some (.ok (st, 0, 0)) := by
  cases resp with
  | nil => simp [sondearEjecucion, h]
  | cons r resto => cases r <;> simp [sondearEjecucion, h]

lemma sondeo_no_terminal_sondeos :
    ∀ (resp : List (Except String RunStatus)) (st fin : RunStatus) (n s : Nat),
      esEstadoNoTerminal st = true →
      sondearEjecucion st resp = some (.ok (fin, n, s)) →
      1 ≤ n ∧ esEstadoNoTerminal fin = false := by
  intro resp
  induction resp with
  | nil =>
    intro st fin n s h1 h2
    simp [sondearEjecucion, h1] at h2
  | cons r resto ih =>
    intro st fin n s h1 h2
    cases r with
    | error e =>
      simp [sondearEjecucion, h1] at h2
    | ok st2 =>
      simp only [sondearEjecucion, h1, if_true] at h2
      by_cases h3 : esEstadoNoTerminal st2 = true
      · cases hs : sondearEjecucion st2 resto with
        | none => rw [hs] at h2; simp at h2
        | some x =>
          cases x with
          | error e2 => rw [hs] at h2; simp at h2
          | ok y =>
            obtain ⟨fin2, n2, s2⟩ := y
            rw [hs] at h2
            simp only [Option.some_inj, Except.ok.injEq, Prod.mk.injEq] at h2
            obtain ⟨hfin, hn, hsv⟩ := h2
            have hrec := ih st2 fin2 n2 s2 h3 hs
            exact ⟨by omega, by rw [← hfin]; exact hrec.2⟩
      · have hterm : esEstadoNoTerminal st2 = false := by
          revert h3; cases esEstadoNoTerminal st2 <;> simp
        rw [sondeo_estado_terminal st2 resto hterm] at h2
        simp only [Option.some_inj, Except.ok.injEq, Prod.mk.injEq] at h2
        obtain ⟨hfin, hn, hsv⟩ := h2
        exact ⟨by omega, by rw [← hfin]; exact hterm⟩

lemma sondeo_secuencia (n : Nat) :
    ∀ st : RunStatus, esEstadoNoTerminal st = true →
      sondearEjecucion st (List.replicate n (.ok .in_progress) ++ [.ok .completed])
        = some (.ok (.completed, n + 1, n + 1)) := by
  induction n with
  | zero =>
    intro st h
    have hc : esEstadoNoTerminal RunStatus.completed = false := rfl
    simp [sondearEjecucion, h, hc]
  | succ k ih =>
    intro st h
    rw [List.replicate_succ, List.cons_append]
    simp only [sondearEjecucion, h, if_true]
    rw [ih .in_progress rfl]

/-- C9: when no moderation backend is configured (`cliente is None`),
`moderar_texto` returns a safe verdict for every text, with the reason
that moderation is disabled and no category data attached
(lines 91-93). -/
theorem c9_moderacion_deshabilitada (texto : String) :
    moderar_texto texto none
      = ⟨true, "Moderación de contenido deshabilitada", none⟩ := rfl

/-- C3: if the moderation backend call raises, `moderar_texto` returns
a fail-open safe verdict whose reason records that moderation is
unavailable, with no category data (lines 123-127); consequently a
turn whose input is analysed by such a backend is never refused at the
input gate. -/
theorem c3_moderacion_fail_open (texto : String) (analizar : Moderador) (e : String)
    (h : analizar texto = .error e) :
    moderar_texto texto (some analizar) = ⟨true, "Moderación no disponible", none⟩
    ∧ ∀ env : EntornoTurno, env.entrada = texto → ∀ razon : String,
        Evento.rechazoEntrada razon ∉ eventosTurno (ejecutarCuerpoTurno (some analizar) env) := by
  have hv : moderar_texto texto (some analizar)
      = ⟨true, "Moderación no disponible", none⟩ := by
    simp [moderar_texto, h]
  refine ⟨hv, ?_⟩
  intro env hent razon hmem
  generalize hc : ejecutarCuerpoTurno (some analizar) env = res at hmem
  cases res with
  | termina r =>
    rcases cuerpo_termina_casos _ env r hc with ⟨hs, hr⟩ | ⟨hs, mensajes, n, hlist, hr⟩
    · rw [hent, hv] at hs
      simp at hs
    · subst hr
      simp only [eventosTurno, List.mem_cons, List.mem_append] at hmem
      rcases hmem with hw | h1 | h2 | h3
      · obtain ⟨e2, he⟩ := eventosModeracion_mem env.entrada _ _ hw
        exact Evento.noConfusion he
      · exact Evento.noConfusion h1
      · exact procesarPartes_sin_rechazoEntrada _ _ razon h2
      · simp at h3
  | excepcion e2 evs =>
    rw [cuerpo_excepcion_eventos _ env e2 evs hc] at hmem
    simp only [eventosTurno, List.mem_append] at hmem
    rcases hmem with hw | h1
    · obtain ⟨e2, he⟩ := eventosModeracion_mem env.entrada _ _ hw
      exact Evento.noConfusion he
    · simp at h1
  | diverge evs =>
    rw [cuerpo_diverge_eventos _ env evs hc] at hmem
    simp only [eventosTurno, List.mem_append] at hmem
    rcases hmem with hw | h1
    · obtain ⟨e2, he⟩ := eventosModeracion_mem env.entrada _ _ hw
      exact Evento.noConfusion he
    · simp at h1

/-- Witness for C3 at the concrete always-raising backend. -/
theorem c3_moderacion_fail_open_witness :
    moderar_texto "hola" (some analizarError)
      = ⟨true, "Moderación no disponible", none⟩ :=
  (c3_moderacion_fail_open "hola" analizarError "net" rfl).1

/-- C2: with a configured backend whose analysis succeeds, the verdict
is unsafe iff some returned category has severity ≥ 2, equivalently it
is safe iff the maximum severity is < 2, and in the unsafe case the
reason lists exactly the categories at or above the threshold
(lines 100-121). -/
theorem c2_umbral_severidad (texto : String) (analizar : Moderador)
    (categorias : List ResultadoCategoria)
    (h : analizar texto = .ok categorias) :
    ((moderar_texto texto (some analizar)).esSeguro = false
      ↔ ∃ c ∈ categorias, 2 ≤ c.severity)
    ∧ ((moderar_texto texto (some analizar)).esSeguro = true
      ↔ severidadMaxima categorias < 2)
    ∧ ((moderar_texto texto (some analizar)).esSeguro = false →
      (moderar_texto texto (some analizar)).razon
        = "Contenido marcado por: " ++ String.intercalate ", " (entradasMarcadas categorias)) := by
  have hm := foldl_pasoCategoria_marcado categorias false [] 0
  have hl := foldl_pasoCategoria_lista categorias false [] 0
  simp only [Bool.false_or] at hm
  simp only [List.nil_append] at hl
  by_cases hany : categorias.any (fun c => decide (2 ≤ c.severity)) = true
  · have hflag : (categorias.foldl pasoCategoria (false, [], 0)).1 = true := by
      rw [hm, hany]
    have hmt : moderar_texto texto (some analizar)
        = ⟨false, "Contenido marcado por: " ++ String.intercalate ", "
            ((categorias.foldl pasoCategoria (false, [], 0)).2.1), some categorias⟩ := by
      simp [moderar_texto, h, hflag]
    rw [hmt]
    refine ⟨?_, ?_, ?_⟩
    · constructor
      · intro _
        obtain ⟨c, hc, hdec⟩ := List.any_eq_true.mp hany
        exact ⟨c, hc, of_decide_eq_true hdec⟩
      · intro _
        rfl
    · constructor
      · intro hcontra
        exact absurd hcontra (by simp)
      · intro hlt
        exfalso
        rw [severidadMaxima, foldl_max_lt_dos] at hlt
        obtain ⟨c, hc, hdec⟩ := List.any_eq_true.mp hany
        have hc2 := hlt.2 c hc
        have hge := of_decide_eq_true hdec
        omega
    · intro _
      show "Contenido marcado por: " ++ String.intercalate ", "
          ((categorias.foldl pasoCategoria (false, [], 0)).2.1) = _
      rw [hl]
  · have hany2 : categorias.any (fun c => decide (2 ≤ c.severity)) = false := by
      revert hany; cases categorias.any (fun c => decide (2 ≤ c.severity)) <;> simp
    have hflag : (categorias.foldl pasoCategoria (false, [], 0)).1 = false := by
      rw [hm, hany2]
    have hmt : moderar_texto texto (some analizar)
        = ⟨true, "El contenido es seguro", some categorias⟩ := by
      simp [moderar_texto, h, hflag]
    rw [hmt]
    have hall : ∀ c ∈ categorias, c.severity < 2 := by
      intro c hc
      by_contra hge
      have hco : categorias.any (fun c => decide (2 ≤ c.severity)) = true :=
        List.any_eq_true.mpr ⟨c, hc, decide_eq_true (by omega)⟩
      rw [hco] at hany2
      exact Bool.noConfusion hany2
    refine ⟨?_, ?_, ?_⟩
    · constructor
      · intro hcontra
        exact absurd hcontra (by simp)
      · rintro ⟨c, hc, hsev⟩
        have := hall c hc
        omega
    · constructor
      · intro _
        rw [severidadMaxima, foldl_max_lt_dos]
        exact ⟨by omega, hall⟩
      · intro _
        rfl
    · intro hcontra
      exact absurd hcontra (by simp)

/-- Witness for C2 at a backend flagging `Hate` with severity 3. -/
theorem c2_umbral_severidad_witness :
    (moderar_texto "hola" (some analizarMarcado)).esSeguro = false
    ∧ (moderar_texto "hola" (some analizarMarcado)).razon
        = "Contenido marcado por: " ++ String.intercalate ", " (entradasMarcadas [⟨"Hate", 3⟩]) := by
  have h := c2_umbral_severidad "hola" analizarMarcado [⟨"Hate", 3⟩] rfl
  have hf : (moderar_texto "hola" (some analizarMarcado)).esSeguro = false :=
    h.1.mpr ⟨⟨"Hate", 3⟩, List.mem_singleton.mpr rfl, by decide⟩
  exact ⟨hf, h.2.2 hf⟩

/-- C8: on the status sequence Queued, InProgress, Completed the
polling loop makes exactly two fetches (each preceded by one
1-second sleep) and stops; it keeps polling exactly while the status is
in {queued, in_progress, requires_action}, with no retry bound (any
number of non-terminal observations is followed), and the turn then
proceeds to retrieval (lines 336-339). -/
theorem c8_sondeo_politica :
    sondearEjecucion .queued [.ok .in_progress, .ok .completed]
      = some (.ok (.completed, 2, 2))
    ∧ (∀ st resp, esEstadoNoTerminal st = false →
        sondearEjecucion st resp = some (.ok (st, 0, 0)))
    ∧ (∀ resp st fin n s, esEstadoNoTerminal st = true →
        sondearEjecucion st resp = some (.ok (fin, n, s)) →
        1 ≤ n ∧ esEstadoNoTerminal fin = false)
    ∧ (∀ st, esEstadoNoTerminal st = true
        ↔ (st = .queued ∨ st = .in_progress ∨ st = .requires_action))
    ∧ (∀ n, sondearEjecucion .queued (List.replicate n (.ok .in_progress) ++ [.ok .completed])
        = some (.ok (.completed, n + 1, n + 1)))
    ∧ sondeosTurno (ejecutarCuerpoTurno none envC8) = some 2
    ∧ mensajeTurno (ejecutarCuerpoTurno none envC8) ≠ none := by
  refine ⟨rfl, sondeo_estado_terminal, sondeo_no_terminal_sondeos, ?_, ?_, by decide, by decide⟩
  · intro st
    cases st <;> decide
  · intro n
    exact sondeo_secuencia n .queued rfl

/-- Witness for C8: a terminal status is not polled at all. -/
theorem c8_sondeo_politica_witness :
    sondearEjecucion .completed [] = some (.ok (.completed, 0, 0)) :=
  c8_sondeo_politica.2.1 .completed [] rfl

/-- C1: whenever a turn displays an agent response text, the input
moderation verdict and the moderation verdict of that very text were
both computed during the turn and both were safe; no path prints agent
text while skipping either gate (lines 312 and 366-368). -/
theorem c1_entrega_sin_bypass (cliente : Option Moderador) (env : EntornoTurno)
    (t : String)
    (h : Evento.textoAgente t ∈ eventosTurno (ejecutarCuerpoTurno cliente env)) :
    ((env.entrada, moderar_texto env.entrada cliente)
        ∈ moderacionesTurno (ejecutarCuerpoTurno cliente env)
      ∧ (moderar_texto env.entrada cliente).esSeguro = true)
    ∧ ((t, moderar_texto t cliente) ∈ moderacionesTurno (ejecutarCuerpoTurno cliente env)
      ∧ (moderar_texto t cliente).esSeguro = true) :=
  eventos_textoAgente_seguro cliente env t h

/-- Witness for C1 on a concrete delivered turn. -/
theorem c1_entrega_sin_bypass_witness :
    ((("hola", moderar_texto "hola" none)
        ∈ moderacionesTurno (ejecutarCuerpoTurno none envEntrega))
      ∧ (moderar_texto "hola" none).esSeguro = true)
    ∧ ((("respuesta", moderar_texto "respuesta" none)
        ∈ moderacionesTurno (ejecutarCuerpoTurno none envEntrega))
      ∧ (moderar_texto "respuesta" none).esSeguro = true) :=
  c1_entrega_sin_bypass none envEntrega "respuesta" (by decide)

/-- C10: whenever a turn posts a message to the thread, the posted
content is the raw input prefixed with the fixed context string built
from the hardcoded customer id, it therefore differs from the raw
input, while the input moderation call was made on the raw input
(lines 306-307 and 323-327). -/
theorem c10_prefijo_contexto (cliente : Option Moderador) (env : EntornoTurno)
    (c : String)
    (h : mensajeTurno (ejecutarCuerpoTurno cliente env) = some c) :
    c = "[CONTEXT: customer_id=88129215] " ++ env.entrada
    ∧ c ≠ env.entrada
    ∧ (moderacionesTurno (ejecutarCuerpoTurno cliente env)).head?
        = some (env.entrada, moderar_texto env.entrada cliente) := by
  generalize hc : ejecutarCuerpoTurno cliente env = res at h ⊢
  cases res with
  | termina r =>
    rcases cuerpo_termina_casos cliente env r hc with ⟨hs, hr⟩ | ⟨hs, mensajes, n, hlist, hr⟩
    · subst hr
      simp [mensajeTurno] at h
    · subst hr
      simp only [mensajeTurno, Option.some_inj] at h
      have hcc : c = contenidoMensaje env.entrada := h.symm
      have hlit : contenidoMensaje env.entrada
          = "[CONTEXT: customer_id=88129215] " ++ env.entrada := rfl
      refine ⟨by rw [hcc, hlit], ?_, by simp [moderacionesTurno]⟩
      rw [hcc, hlit]
      intro heq
      have hlen := congrArg String.length heq
      rw [String.length_append] at hlen
      have h32 : ("[CONTEXT: customer_id=88129215] " : String).length = 32 := rfl
      omega
  | excepcion e evs => simp [mensajeTurno] at h
  | diverge evs => simp [mensajeTurno] at h

/-- Witness for C10 on a concrete submitted turn. -/
theorem c10_prefijo_contexto_witness :
    contenidoMensaje "hola" = "[CONTEXT: customer_id=88129215] " ++ "hola"
    ∧ contenidoMensaje "hola" ≠ "hola" := by
  have h := c10_prefijo_contexto none envEntrega (contenidoMensaje "hola") rfl
  exact ⟨h.1, h.2.1⟩

/-- C5 (amended): a response text judged unsafe is indeed never
displayed and the generic refusal is printed for it — but the
per-category severity breakdown is ALSO printed to the user-facing
output (via `imprimir_resultados_seguridad_contenido`, line 379), not
suppressed. -/
theorem c5_salida_insegura (cliente : Option Moderador) (env : EntornoTurno)
    (t : String) (h : (moderar_texto t cliente).esSeguro = false) :
    Evento.textoAgente t ∉ eventosTurno (ejecutarCuerpoTurno cliente env)
    ∧ ∀ partes : List ContenidoParte, ContenidoParte.texto t ∈ partes →
        Evento.rechazoRespuesta ∈ (procesarPartes cliente partes).1
        ∧ Evento.impresionAnalisis (moderar_texto t cliente).respuesta
            ∈ (procesarPartes cliente partes).1 := by
  constructor
  · intro hmem
    have hsafe := (eventos_textoAgente_seguro cliente env t hmem).2.2
    rw [h] at hsafe
    exact Bool.noConfusion hsafe
  · intro partes hp
    exact procesarPartes_parte_insegura cliente partes t h hp

/-- Counterexample to C5 as stated: on a turn whose assistant text
`"malo"` is flagged at severity 4, the category breakdown (Hate,
severity 4) appears in the user-facing prints alongside the generic
refusal — it is not suppressed from the user-facing output. -/
theorem c5_counterexample :
    Evento.impresionAnalisis (some [⟨"Hate", 4⟩])
      ∈ eventosTurno (ejecutarCuerpoTurno (some analizarC5) envC5)
    ∧ Evento.rechazoRespuesta ∈ eventosTurno (ejecutarCuerpoTurno (some analizarC5) envC5)
    ∧ Evento.textoAgente "malo" ∉ eventosTurno (ejecutarCuerpoTurno (some analizarC5) envC5) := by
  decide

/-- Witness for C5 (amended) at the concrete flagged response. -/
theorem c5_salida_insegura_witness :
    Evento.textoAgente "malo" ∉ eventosTurno (ejecutarCuerpoTurno (some analizarC5) envC5)
    ∧ Evento.rechazoRespuesta
        ∈ (procesarPartes (some analizarC5) [ContenidoParte.texto "malo"]).1 := by
  have h := c5_salida_insegura (some analizarC5) envC5 "malo" (by decide)
  exact ⟨h.1, (h.2 [ContenidoParte.texto "malo"] (by simp)).1⟩

/-- C6 (amended): when the run terminates but the first assistant
message (if any) carries no text part, the turn ends silently: no
failure notice is printed — the only user-visible prints are those of
the input moderation call (its warning if the backend raised, then the
analysis table) and the spacing line (lines 348-382 print nothing in
that case). -/
theorem c6_sin_texto_sin_aviso (cliente : Option Moderador) (env : EntornoTurno)
    (mensajes : List Mensaje)
    (h1 : env.svc.listarMensajes = .ok mensajes)
    (h2 : numPartesTexto (contenidoAsistente mensajes) = 0)
    (h3 : mensajeTurno (ejecutarCuerpoTurno cliente env) ≠ none) :
    eventosTurno (ejecutarCuerpoTurno cliente env)
      = eventosModeracion env.entrada cliente ++
          [Evento.impresionAnalisis (moderar_texto env.entrada cliente).respuesta,
           Evento.lineaBlanca] := by
  generalize hc : ejecutarCuerpoTurno cliente env = res at h3 ⊢
  cases res with
  | termina r =>
    rcases cuerpo_termina_casos cliente env r hc with ⟨hs, hr⟩ | ⟨hs, mensajes2, n, hlist, hr⟩
    · subst hr
      simp [mensajeTurno] at h3
    · subst hr
      rw [h1] at hlist
      injection hlist with hms
      subst hms
      have hpp := procesarPartes_sin_texto cliente (contenidoAsistente mensajes) h2
      simp [eventosTurno, hpp]
  | excepcion e evs => simp [mensajeTurno] at h3
  | diverge evs => simp [mensajeTurno] at h3

/-- Counterexample to C6 as stated: a turn whose run terminates with an
empty message list produces no failure notice at all — the complete
user-visible output is the input-analysis print and a blank line, so
this non-empty turn ends with no assistant-facing message and no
`Failed` report. -/
theorem c6_counterexample :
    ejecutarCuerpoTurno none envC6
      = .termina ⟨[Evento.impresionAnalisis none, Evento.lineaBlanca],
                  [("hola", ⟨true, "Moderación de contenido deshabilitada", none⟩)],
                  some (contenidoMensaje "hola"), 1⟩ := by
  decide

/-- Witness for C6 (amended) at a concrete turn whose assistant
message carries only a non-text part. -/
theorem c6_sin_texto_sin_aviso_witness :
    eventosTurno (ejecutarCuerpoTurno none envSinTexto)
      = [Evento.impresionAnalisis none, Evento.lineaBlanca] :=
  c6_sin_texto_sin_aviso none envSinTexto [⟨"assistant", [.otro]⟩] rfl (by decide) (by decide)

/-- C7 (amended): on a submitted turn the moderation gate runs once on
the input plus once per text part of the first assistant message — so
exactly twice precisely when that message has exactly one text part
(the loop of lines 355-364 moderates every text part). -/
theorem c7_conteo_moderaciones (cliente : Option Moderador) (env : EntornoTurno)
    (mensajes : List Mensaje)
    (h1 : env.svc.listarMensajes = .ok mensajes)
    (h2 : mensajeTurno (ejecutarCuerpoTurno cliente env) ≠ none) :
    (moderacionesTurno (ejecutarCuerpoTurno cliente env)).length
      = 1 + numPartesTexto (contenidoAsistente mensajes)
    ∧ (numPartesTexto (contenidoAsistente mensajes) = 1 →
      (moderacionesTurno (ejecutarCuerpoTurno cliente env)).length = 2) := by
  generalize hc : ejecutarCuerpoTurno cliente env = res at h2 ⊢
  cases res with
  | termina r =>
    rcases cuerpo_termina_casos cliente env r hc with ⟨hs, hr⟩ | ⟨hs, mensajes2, n, hlist, hr⟩
    · subst hr
      simp [mensajeTurno] at h2
    · subst hr
      rw [h1] at hlist
      injection hlist with hms
      subst hms
      constructor
      · simp [moderacionesTurno, procesarPartes_longitud]
        omega
      · intro huno
        simp [moderacionesTurno, procesarPartes_longitud, huno]
  | excepcion e evs => simp [mensajeTurno] at h2
  | diverge evs => simp [mensajeTurno] at h2

/-- Counterexample to C7 as stated: a turn whose assistant message has
two text parts delivers agent text yet invokes the moderation gate
three times, not exactly twice. -/
theorem c7_counterexample :
    Evento.textoAgente "a" ∈ eventosTurno (ejecutarCuerpoTurno (some analizarSeguro) envC7)
    ∧ Evento.textoAgente "b" ∈ eventosTurno (ejecutarCuerpoTurno (some analizarSeguro) envC7)
    ∧ (moderacionesTurno (ejecutarCuerpoTurno (some analizarSeguro) envC7)).length = 3 := by
  decide

/-- Witness for C7 (amended): with a single text part the count is
exactly two. -/
theorem c7_conteo_moderaciones_witness :
    (moderacionesTurno (ejecutarCuerpoTurno (some analizarSeguro) envEntrega)).length = 2 :=
  (c7_conteo_moderaciones (some analizarSeguro) envEntrega _ rfl (by decide)).2 (by decide)

/-- C4 (amended): an agent-service error is session-fatal, not
turn-fatal: nothing catches it, so when `runs.create` raises during a
non-empty, non-exit turn with a safe input, the loop body aborts with
that exception and the session loop terminates at once — no `Failed`
outcome is recorded and the remaining inputs are never accepted
(lines 321-345 have no error handler). -/
theorem c4_error_servicio_fatal (cliente : Option Moderador) (env : EntornoTurno)
    (resto : List EntornoTurno) (e : String)
    (h1 : esComandoSalida env.entrada = false)
    (h2 : env.entrada ≠ "") :
    ((moderar_texto env.entrada cliente).esSeguro = true →
      env.svc.crearMensaje (contenidoMensaje env.entrada) = .ok () →
      env.svc.crearEjecucion = .error e →
      ejecutarCuerpoTurno cliente env
        = .excepcion e (eventosModeracion env.entrada cliente ++
            [.impresionAnalisis (moderar_texto env.entrada cliente).respuesta]))
    ∧ (∀ evs, ejecutarCuerpoTurno cliente env = .excepcion e evs →
        ejecutarSesion cliente (env :: resto) = (1, [], .excepcion e)) := by
  constructor
  · intro hs hok herr
    unfold ejecutarCuerpoTurno
    rw [if_neg (by simp [hs])]
    rw [hok, herr]
  · intro evs hexc
    unfold ejecutarSesion
    rw [if_neg (by simp [h1]), if_neg h2, hexc]

/-- Counterexample to C4 as stated: with a network error at
`runs.create` on the first turn, the session ends with the uncaught
exception after one iteration — the second prepared input is never
accepted, and no completed (`Failed`-outcome) turn is recorded. -/
theorem c4_counterexample :
    ejecutarSesion none [envErrorRed, envEntrega]
      = (1, [], .excepcion "error de red") := by
  decide

/-- Witness for C4 (amended) at the concrete failing service. -/
theorem c4_error_servicio_fatal_witness :
    ejecutarSesion none [envFalloRed, envEntrega]
      = (1, [], FinSesion.excepcion "fallo de red") := by
  have h := c4_error_servicio_fatal none envFalloRed [envEntrega] "fallo de red"
    (by decide) (by decide)
  exact h.2 _ (h.1 rfl rfl rfl)

end ConversarAgente
